import Mathlib

/-!
Formal model of the Foodgram backend (foodgram-project-react).

The definitions below are a shallow embedding of the Django application:
the relational tables of `backend/recipes/models.py` and
`backend/users/models.py` become lists of rows in a `Store`, and the
view / serializer logic of `backend/api/views.py` and
`backend/api/serializers.py` becomes pure functions over that store.
Database query sets (`values(...).annotate(...)`) are modelled as lists of
Python-style dictionaries so that the dictionary-key accesses of the view
code keep their runtime meaning (a missing key is a `KeyError`).
-/

namespace Foodgram

/-- Row of the `Ingredient` table: a name plus a measurement unit
(`recipes/models.py`, class `Ingredient`). -/
structure Ingredient where
  id : Nat
  name : String
  measurement_unit : String
deriving DecidableEq

/-- Row of the `Recipe` table (`recipes/models.py`, class `Recipe`).
`cooking_time` is the `PositiveSmallIntegerField` with
`MinValueValidator(1)`; it is carried as an integer so that the
validation layer, not the type, is what guarantees positivity. -/
structure RecipeRow where
  id : Nat
  author : Nat
  name : String
  image : String
  text : String
  cooking_time : Int
deriving DecidableEq

/-- Row of the `RecipeIngredient` junction table (`recipes/models.py`,
class `RecipeIngredient`): one recipe, one ingredient, a quantity.
The foreign key to `Ingredient` is embedded as the referenced row, the
way the ORM dereferences `ingredient__name` through the relation. -/
structure RecipeIngredientRow where
  recipe : Nat
  ingredient : Ingredient
  amount : Int
deriving DecidableEq

/-- Row of the implicit `Recipe.tags` many-to-many table. -/
structure RecipeTagRow where
  recipe : Nat
  tag : Nat
deriving DecidableEq

/-- Row of the `Favourite` and `ShoppingCart` tables
(`recipes/models.py`): a (user, recipe) membership pair. -/
structure MembershipRow where
  user : Nat
  recipe : Nat
deriving DecidableEq

/-- Row of the follow table (`users/models.py`, class `Subscribe`):
a (user, author) edge. -/
structure FollowRow where
  user : Nat
  author : Nat
deriving DecidableEq

/-- The relational store: one list of rows per table.  `users` and
`tags` hold the primary keys that exist in the `User` and `Tag`
tables (only existence of those rows matters to the endpoints). -/
structure Store where
  users : List Nat
  tags : List Nat
  ingredients : List Ingredient
  recipes : List RecipeRow
  recipeIngredients : List RecipeIngredientRow
  recipeTags : List RecipeTagRow
  favourites : List MembershipRow
  shoppingCart : List MembershipRow
  follows : List FollowRow
deriving DecidableEq

/-! ### Shopping-list aggregation (`views.py`, `download_shopping_cart`)

`RecipeIngredient.objects.filter(recipe__shopping__user=user)` selects
the ingredient rows of every recipe in the user's shopping cart;
`.values('ingredient__name', 'ingredient__measurement_unit')` together
with `.annotate(total=Sum('amount'))` groups them by (name, unit) and
sums the amounts, yielding one dictionary per group whose keys are the
strings `ingredient__name`, `ingredient__measurement_unit`, `total`. -/

/-- Value stored in a Python dictionary produced by `values().annotate()`. -/
inductive PyVal
  | str (v : String)
  | int (v : Int)
deriving DecidableEq

/-- A Python dictionary, as an association list over string keys. -/
abbrev PyDict := List (String × PyVal)

/-- Dictionary subscript `d[k]`: `some` value, or `none` (a `KeyError`). -/
def dictGet (d : PyDict) (k : String) : Option PyVal :=
  (d.find? (fun kv => kv.1 = k)).map (fun kv => kv.2)

/-- How Python renders a value inside an f-string. -/
def pyFormat : PyVal → String
  | .str v => v
  | .int v => toString v

/-- Recipe ids currently in the user's shopping cart. -/
def cartRecipeIds (store : Store) (user : Nat) : List Nat :=
  (store.shoppingCart.filter (fun m => m.user = user)).map (fun m => m.recipe)

/-- The `RecipeIngredient` rows selected by
`filter(recipe__shopping__user=user)`: every row whose recipe is in the
user's cart. -/
def cartIngredientRows (store : Store) (user : Nat) : List RecipeIngredientRow :=
  store.recipeIngredients.filter
    (fun row => (cartRecipeIds store user).contains row.recipe)

/-- Grouping keys of `values('ingredient__name', 'ingredient__measurement_unit')`:
the distinct (name, measurement unit) pairs of the selected rows. -/
def groupKeys (rows : List RecipeIngredientRow) : List (String × String) :=
  (rows.map (fun row => (row.ingredient.name, row.ingredient.measurement_unit))).dedup

/-- The `Sum('amount')` aggregate of one group. -/
def groupTotal (rows : List RecipeIngredientRow) (key : String × String) : Int :=
  ((rows.filter (fun row =>
      row.ingredient.name = key.1 && row.ingredient.measurement_unit = key.2)).map
    (fun row => row.amount)).sum

/-- Result of `.values('ingredient__name', 'ingredient__measurement_unit')
.annotate(total=Sum('amount'))`: one dictionary per group, with exactly
the keys Django produces. -/
def valuesAnnotate (rows : List RecipeIngredientRow) : List PyDict :=
  (groupKeys rows).map (fun key =>
    [("ingredient__name", PyVal.str key.1),
     ("ingredient__measurement_unit", PyVal.str key.2),
     ("total", PyVal.int (groupTotal rows key))])

/-- One iteration of the rendering loop, after `buy_list_count += 1`:
the f-string reads `item["name"]`, `item["total"]` and
`item["measurement_unit"]` in that order; a missing key is a
`KeyError`. -/
def formatItem (count : Nat) (item : PyDict) : Except String String :=
  match dictGet item "name" with
  | none => .error "KeyError: name"
  | some nameVal =>
    match dictGet item "total" with
    | none => .error "KeyError: total"
    | some totalVal =>
      match dictGet item "measurement_unit" with
      | none => .error "KeyError: measurement_unit"
      | some unitVal =>
        .ok (toString count ++ ")" ++ pyFormat nameVal ++ ", " ++
             pyFormat totalVal ++ pyFormat unitVal ++ "\n")

/-- The `for item in ingredients` loop of `download_shopping_cart`,
threading `buy_list_count` and `buy_list_text`. -/
def buyListLoop (count : Nat) (text : String) :
    List PyDict → Except String String
  | [] => .ok text
  | item :: rest =>
    match formatItem (count + 1) item with
    | .error e => .error e
    | .ok line => buyListLoop (count + 1) (text ++ line) rest

/-- `RecipeViewSet.download_shopping_cart` (`views.py`): aggregate the
cart and render the numbered plain-text list; `.error` is an uncaught
Python exception escaping the handler. -/
def download_shopping_cart (store : Store) (user : Nat) :
    Except String String :=
  buyListLoop 0 ("Список покупок с сайта Foodgram:" ++ "\n\n")
    (valuesAnnotate (cartIngredientRows store user))

/-! ### Recipe write validation (`serializers.py`, `RecipeCreateUpdateSerializer`)

Field validation mirrors the declared serializer fields:
`tags = PrimaryKeyRelatedField(queryset=Tag.objects.all(), many=True)`
resolves each primary key and allows an empty list (the DRF default),
`ingredients = RecipeIngredientSerializer(many=True)` resolves each item
through `id = PrimaryKeyRelatedField(source='ingredient', ...)` and
`amount = IntegerField(min_value=1)` and likewise allows an empty list,
and `cooking_time = IntegerField(min_value=1)`.  The object-level
`validate` then rejects repeated ingredient identifiers. -/

/-- One item of the posted `ingredients` list: an ingredient primary key
and an amount, as parsed by `RecipeIngredientSerializer`. -/
structure IngredientItem where
  id : Nat
  amount : Int
deriving DecidableEq

/-- The body of a recipe create request, after JSON parsing. -/
structure RecipePayload where
  tags : List Nat
  ingredients : List IngredientItem
  name : String
  image : String
  text : String
  cooking_time : Int
deriving DecidableEq

/-- A field-level serializer error, keyed by what failed. -/
inductive FieldError
  | tagNotFound (id : Nat)
  | ingredientNotFound (id : Nat)
  | amountTooSmall
  | cookingTimeTooSmall
  | duplicateIngredient
deriving DecidableEq

/-- `PrimaryKeyRelatedField(queryset=Tag.objects.all(), many=True)`: each
posted tag id must name an existing tag row; an empty list is accepted. -/
def resolveTags (store : Store) : List Nat → Except FieldError (List Nat)
  | [] => .ok []
  | t :: rest =>
    if store.tags.contains t then
      match resolveTags store rest with
      | .error e => .error e
      | .ok ts => .ok (t :: ts)
    else .error (.tagNotFound t)

/-- `RecipeIngredientSerializer(many=True)`: each item's `id` must name an
existing ingredient row (the field is sourced to the `ingredient` object)
and its `amount` must satisfy `min_value=1`; an empty list is accepted. -/
def resolveIngredients (store : Store) :
    List IngredientItem → Except FieldError (List (Ingredient × Int))
  | [] => .ok []
  | item :: rest =>
    match store.ingredients.find? (fun ing => ing.id = item.id) with
    | none => .error (.ingredientNotFound item.id)
    | some ing =>
      if item.amount < 1 then .error .amountTooSmall
      else
        match resolveIngredients store rest with
        | .error e => .error e
        | .ok tail => .ok ((ing, item.amount) :: tail)

/-- The whole `is_valid` pass: field validation (`to_internal_value`)
followed by the object-level `validate`, whose duplicate check compares
`len(ingredients_list)` with `len(set(ingredients_list))`. -/
def runValidation (store : Store) (p : RecipePayload) :
    Except FieldError (List Nat × List (Ingredient × Int)) :=
  match resolveTags store p.tags with
  | .error e => .error e
  | .ok tagsData =>
    match resolveIngredients store p.ingredients with
    | .error e => .error e
    | .ok resolved =>
      if p.cooking_time < 1 then .error .cookingTimeTooSmall
      else if (p.ingredients.map (fun item => item.id)).dedup.length ≠
          (p.ingredients.map (fun item => item.id)).length then
        .error .duplicateIngredient
      else .ok (tagsData, resolved)

/-- `create_update` (`serializers.py`): `bulk_create` of one
`IngredientQuantity` row per validated item, for the given recipe. -/
def create_update (recipeId : Nat) (datas : List (Ingredient × Int)) :
    List RecipeIngredientRow :=
  datas.map (fun data => ⟨recipeId, data.1, data.2⟩)

/-- `RecipeCreateUpdateSerializer.create`: save the recipe row, set its
tags, bulk-create its ingredient rows. -/
def createRows (store : Store) (p : RecipePayload) (author newId : Nat)
    (tagsData : List Nat) (resolved : List (Ingredient × Int)) : Store :=
  { store with
    recipes := store.recipes ++
      [⟨newId, author, p.name, p.image, p.text, p.cooking_time⟩],
    recipeTags := store.recipeTags ++ tagsData.map (fun t => ⟨newId, t⟩),
    recipeIngredients := store.recipeIngredients ++
      create_update newId resolved }

/-- The recipe create endpoint: validate, then persist.  On a validation
error nothing is saved and the error is the response. -/
def createRecipe (store : Store) (p : RecipePayload) (author newId : Nat) :
    Except FieldError Store :=
  match runValidation store p with
  | .error e => .error e
  | .ok (tagsData, resolved) => .ok (createRows store p author newId tagsData resolved)

/-- The endpoint as a state transformer: a rejected write leaves the
store untouched. -/
def performCreate (store : Store) (p : RecipePayload) (author newId : Nat) :
    Store :=
  match createRecipe store p author newId with
  | .error _ => store
  | .ok s => s

/-- An insert that the database refuses mid-way (e.g. `bulk_create`
hitting a constraint): the attempt runs recipe save, `tags.set`, then the
failing bulk insert, in the order of `create`. -/
def createRecipeAttempt (store : Store) (p : RecipePayload)
    (author newId : Nat) (bulkFails : Bool) : Except FieldError Store :=
  match runValidation store p with
  | .error e => .error e
  | .ok (tagsData, resolved) =>
    if bulkFails then .error .duplicateIngredient
    else .ok (createRows store p author newId tagsData resolved)

/-- Modelled from the spec: the transaction configuration lives in the
Django settings module, which is not among the sources; section 5 of the
specification states that every operation is a request-scoped,
single-operation transaction whose consistency is delegated to the
database, so a failure at any step rolls the whole write back to the
initial store. -/
def createRecipeTx (store : Store) (p : RecipePayload) (author newId : Nat)
    (bulkFails : Bool) : Store :=
  match createRecipeAttempt store p author newId bulkFails with
  | .error _ => store
  | .ok s => s

/-! ### Recipe update (`serializers.py`, `RecipeCreateUpdateSerializer.update`) -/

/-- The validated data handed to `update`: a key that the partial request
omitted is absent (`none`). -/
structure UpdatePayload where
  tags : Option (List Nat)
  ingredients : Option (List (Ingredient × Int))
  cooking_time : Option Int
deriving DecidableEq

/-- `RecipeCreateUpdateSerializer.update`: when `tags` is present,
`instance.tags.set(tags_data)` replaces the tag set; when `ingredients`
is present, the recipe's `IngredientQuantity` rows are deleted and the
new ones bulk-created; the remaining scalar fields go through
`super().update`. -/
def updateMethod (store : Store) (recipeId : Nat) (v : UpdatePayload) :
    Store :=
  let s1 :=
    match v.tags with
    | some tagsData =>
      { store with
        recipeTags := store.recipeTags.filter (fun r => r.recipe ≠ recipeId) ++
          tagsData.map (fun t => ⟨recipeId, t⟩) }
    | none => store
  let s2 :=
    match v.ingredients with
    | some items =>
      { s1 with
        recipeIngredients :=
          s1.recipeIngredients.filter (fun r => r.recipe ≠ recipeId) ++
            create_update recipeId items }
    | none => s1
  match v.cooking_time with
  | some ct =>
    { s2 with
      recipes := s2.recipes.map (fun r =>
        if r.id = recipeId then { r with cooking_time := ct } else r) }
  | none => s2

/-- Field validation applied to the keys present in an update request:
the same serializer fields as on create (`min_value=1` on amounts and
cooking time, primary keys must resolve, repeated ingredient ids are
rejected by `validate`). -/
def validUpdate (store : Store) (v : UpdatePayload) : Bool :=
  (match v.tags with
   | some tagsData => tagsData.all (fun t => store.tags.contains t)
   | none => true) &&
  (match v.ingredients with
   | some items =>
     items.all (fun item => 1 ≤ item.2) &&
       ((items.map (fun item => item.1.id)).dedup.length =
         (items.map (fun item => item.1.id)).length)
   | none => true) &&
  (match v.cooking_time with
   | some ct => 1 ≤ ct
   | none => true)

/-! ### Object-level duplicate check (`serializers.py`, `validate`)

`validate` reads `self.initial_data.get('ingredients')`; when the raw
payload has no `ingredients` key, `get` returns `None` and the list
comprehension `[ingredient['id'] for ingredient in ingredients]` raises
an uncaught `TypeError` instead of a `ValidationError`. -/

/-- A Python exception raised inside `validate`. -/
inductive PyError
  | validationError (msg : String)
  | typeError (msg : String)
deriving DecidableEq

/-- `RecipeCreateUpdateSerializer.validate`, as a function of
`initial_data.get('ingredients')`: its argument is `none` when the raw
payload omits the key. -/
def validateIngredientDuplicates : Option (List Nat) → Except PyError Unit
  | none => .error (.typeError "argument of type NoneType is not iterable")
  | some ids =>
    if ids.dedup.length ≠ ids.length then
      .error (.validationError "Which ingredient is listed more than once")
    else .ok ()

/-! ### The update request pipeline

An update (PATCH) goes through the same serializer: the field validators
run on whatever keys the request carries, then the object-level
`validate` runs on `initial_data` — so a request without the
`ingredients` key dies in `validate` with the uncaught `TypeError`
modelled above, and only a request that survives both reaches
`update`. -/

/-- The body of a recipe update request: a key the caller omitted is
absent (`none`). -/
structure UpdateRequest where
  tags : Option (List Nat)
  ingredients : Option (List IngredientItem)
  cooking_time : Option Int
deriving DecidableEq

/-- How a failed update surfaces: a field-level serializer error, the
`ValidationError` raised inside `validate`, or an uncaught Python
exception (a 500, not a validation response). -/
inductive UpdateError
  | field (e : FieldError)
  | invalid (msg : String)
  | uncaught (msg : String)
deriving DecidableEq

/-- The `tags` field validator applied only when the key is present. -/
def validateTagsField (store : Store) :
    Option (List Nat) → Except FieldError (Option (List Nat))
  | none => .ok none
  | some ts =>
    match resolveTags store ts with
    | .error e => .error e
    | .ok tagsData => .ok (some tagsData)

/-- The `ingredients` field validator applied only when the key is
present. -/
def validateIngredientsField (store : Store) :
    Option (List IngredientItem) →
      Except FieldError (Option (List (Ingredient × Int)))
  | none => .ok none
  | some items =>
    match resolveIngredients store items with
    | .error e => .error e
    | .ok resolved => .ok (some resolved)

/-- The `cooking_time` field validator (`min_value=1`) applied only when
the key is present. -/
def validateCookingTimeField : Option Int → Except FieldError (Option Int)
  | none => .ok none
  | some ct => if ct < 1 then .error .cookingTimeTooSmall else .ok (some ct)

/-- The whole `is_valid` pass of an update request: the three field
validators on the present keys, then `validate`, whose argument is
`initial_data.get('ingredients')` — `none` exactly when the request
omitted the key. -/
def runUpdateValidation (store : Store) (q : UpdateRequest) :
    Except UpdateError UpdatePayload :=
  match validateTagsField store q.tags with
  | .error e => .error (.field e)
  | .ok tagsData =>
    match validateIngredientsField store q.ingredients with
    | .error e => .error (.field e)
    | .ok resolved =>
      match validateCookingTimeField q.cooking_time with
      | .error e => .error (.field e)
      | .ok ct =>
        match validateIngredientDuplicates
            (q.ingredients.map (fun items =>
              items.map (fun item => item.id))) with
        | .error (.validationError msg) => .error (.invalid msg)
        | .error (.typeError msg) => .error (.uncaught msg)
        | .ok _ => .ok ⟨tagsData, resolved, ct⟩

/-- The update endpoint as a state transformer: a request that fails
validation (or crashes in `validate`) changes nothing; a valid one runs
`update`. -/
def performUpdate (store : Store) (recipeId : Nat) (q : UpdateRequest) :
    Store :=
  match runUpdateValidation store q with
  | .error _ => store
  | .ok v => updateMethod store recipeId v

/-! ### Favourite / shopping-cart toggles and follows (`views.py`) -/

/-- An HTTP response, as far as the endpoints distinguish them. -/
inductive Resp
  | created
  | noContent
  | badRequest (msg : String)
  | notFound
deriving DecidableEq

/-- Whether a (user, recipe) membership row exists:
`model.objects.filter(user=user, recipe__id=pk).exists()`. -/
def membershipExists (rows : List MembershipRow) (user pk : Nat) : Bool :=
  rows.any (fun r => r.user = user && r.recipe = pk)

/-- `RecipeViewSet.post_method`: reject an already-present pair with 400,
then `get_object_or_404` the recipe, then create the membership row. -/
def post_method (rows : List MembershipRow) (recipes : List RecipeRow)
    (user pk : Nat) : List MembershipRow × Resp :=
  if membershipExists rows user pk then
    (rows, .badRequest "Рецепт уже в списке")
  else
    match recipes.find? (fun r => r.id = pk) with
    | none => (rows, .notFound)
    | some _ => (rows ++ [⟨user, pk⟩], .created)

/-- `RecipeViewSet.delete_method`: delete the filtered rows when they
exist, otherwise 400.  The recipe itself is never looked up. -/
def delete_method (rows : List MembershipRow) (user pk : Nat) :
    List MembershipRow × Resp :=
  if membershipExists rows user pk then
    (rows.filter (fun r => ¬(r.user = user ∧ r.recipe = pk)), .noContent)
  else
    (rows, .badRequest "Рецепта нет в списке")

/-- The HTTP verb reaching `subscribe`. -/
inductive Method
  | post
  | delete
deriving DecidableEq

/-- `CurrentUserViewSet.subscribe`: `get_object_or_404` the author, then
on POST reject self-follow and duplicates before creating the edge, and
on DELETE reject a missing edge before deleting it. -/
def subscribe (follows : List FollowRow) (users : List Nat)
    (user id : Nat) (m : Method) : List FollowRow × Resp :=
  if users.contains id then
    let followExists := follows.any (fun f => f.user = user && f.author = id)
    match m with
    | .post =>
      if user = id then
        (follows, .badRequest "Подписаться на себя запрещено")
      else if followExists then
        (follows, .badRequest "Вы уже подписаны на этого пользователя")
      else
        (follows ++ [⟨user, id⟩], .created)
    | .delete =>
      if followExists then
        (follows.filter (fun f => ¬(f.user = user ∧ f.author = id)), .noContent)
      else
        (follows, .badRequest "Вы не подписаны на этого пользователя")
  else (follows, .notFound)

/-! ### Invariants of the recipe tables (`recipes/models.py`) -/

/-- No two membership rows share their (user, recipe) pair — the
`UniqueConstraint(fields=('user', 'recipe'))` of `Favourite` and
`ShoppingCart`. -/
def uniquePairs (rows : List MembershipRow) : Prop :=
  rows.Pairwise (fun a b => ¬(a.user = b.user ∧ a.recipe = b.recipe))

/-- The schema invariants of claim C8: every persisted recipe has
`cooking_time ≥ 1` (the `MinValueValidator(1)`), and no two
`RecipeIngredient` rows share their (recipe, ingredient) pair (the
`UniqueConstraint(fields=('recipe', 'ingredient'))`). -/
def RecipeInv (store : Store) : Prop :=
  (∀ r ∈ store.recipes, 1 ≤ r.cooking_time) ∧
  store.recipeIngredients.Pairwise
    (fun a b => ¬(a.recipe = b.recipe ∧ a.ingredient.id = b.ingredient.id))

/-! ### Concrete rows used by the witnesses and counterexamples -/

/-- A concrete ingredient row. -/
def flour : Ingredient := ⟨1, "Мука", "г"⟩

/-- A second concrete ingredient row. -/
def sugar : Ingredient := ⟨2, "Сахар", "г"⟩

/-- A concrete store: two users, one tag, two ingredients, one recipe by
user 1 that uses flour, and user 1's cart holding that recipe. -/
def store0 : Store :=
  { users := [1, 2]
    tags := [1]
    ingredients := [flour, sugar]
    recipes := [⟨1, 1, "Блины", "img", "текст", 30⟩]
    recipeIngredients := [⟨1, flour, 200⟩]
    recipeTags := [⟨1, 1⟩]
    favourites := [⟨1, 1⟩]
    shoppingCart := [⟨1, 1⟩]
    follows := [⟨2, 1⟩] }

/-- Payload with an empty tag list but otherwise valid data. -/
def emptyTagsPayload : RecipePayload :=
  ⟨[], [⟨1, 2⟩], "Оладьи", "img", "текст", 10⟩

/-- Payload with an empty ingredient list but otherwise valid data. -/
def emptyIngredientsPayload : RecipePayload :=
  ⟨[1], [], "Оладьи", "img", "текст", 10⟩

/-- Payload whose ingredient list repeats an identifier. -/
def dupIngredientsPayload : RecipePayload :=
  ⟨[1], [⟨1, 2⟩, ⟨1, 3⟩], "Оладьи", "img", "текст", 10⟩

/-- Update request whose ingredient list repeats an identifier. -/
def dupUpdateRequest : UpdateRequest :=
  ⟨some [1], some [⟨1, 2⟩, ⟨1, 3⟩], some 10⟩

/-! ### Helper lemmas about validation -/

/-- When the ingredient items all pass field validation, every amount
meets `min_value=1`. -/
theorem resolveIngredients_ok_amounts {store : Store} :
    ∀ {items : List IngredientItem} {res},
      resolveIngredients store items = .ok res →
      ∀ item ∈ items, 1 ≤ item.amount := by
  intro items
  induction items with
  | nil => intro res _ item hmem; cases hmem
  | cons hd tl ih =>
    intro res h item hmem
    unfold resolveIngredients at h
    cases hfind : store.ingredients.find? (fun ing => ing.id = hd.id) with
    | none => rw [hfind] at h; cases h
    | some ing =>
      rw [hfind] at h
      by_cases hlt : hd.amount < 1
      · simp [hlt] at h
      · simp only [if_neg hlt] at h
        cases hrec : resolveIngredients store tl with
        | error e => rw [hrec] at h; cases h
        | ok tail =>
          rcases List.mem_cons.mp hmem with rfl | hm
          · omega
          · exact ih hrec item hm

/-- When `len(set(ids)) = len(ids)`, the list has no repeats. -/
theorem dedup_length_eq_nodup {ids : List Nat}
    (h : ids.dedup.length = ids.length) : ids.Nodup :=
  List.dedup_eq_self.mp ((List.dedup_sublist ids).eq_of_length h)

/-- Everything a successful `is_valid` pass guarantees about the
payload: amounts ≥ 1, cooking time ≥ 1, and no repeated ingredient id. -/
theorem runValidation_ok_conditions {store : Store} {p : RecipePayload} {v}
    (h : runValidation store p = .ok v) :
    (∀ item ∈ p.ingredients, 1 ≤ item.amount) ∧ 1 ≤ p.cooking_time ∧
      (p.ingredients.map (fun item => item.id)).Nodup := by
  unfold runValidation at h
  cases ht : resolveTags store p.tags with
  | error e => rw [ht] at h; cases h
  | ok tagsData =>
    rw [ht] at h
    cases hi : resolveIngredients store p.ingredients with
    | error e => rw [hi] at h; cases h
    | ok resolved =>
      rw [hi] at h
      dsimp only at h
      by_cases hct : p.cooking_time < 1
      · simp [hct] at h
      · rw [if_neg hct] at h
        by_cases hdup : (p.ingredients.map (fun item => item.id)).dedup.length ≠
            (p.ingredients.map (fun item => item.id)).length
        · rw [if_pos hdup] at h; cases h
        · push_neg at hdup
          exact ⟨resolveIngredients_ok_amounts hi, by omega,
            dedup_length_eq_nodup hdup⟩

/-- Everything a successful `is_valid` pass of an update request
guarantees about the keys it carried: amounts ≥ 1 and no repeated
ingredient id when `ingredients` was present, and cooking time ≥ 1 when
`cooking_time` was present. -/
theorem runUpdateValidation_ok_conditions {store : Store}
    {q : UpdateRequest} {v}
    (h : runUpdateValidation store q = .ok v) :
    (∀ items, q.ingredients = some items →
      (∀ item ∈ items, 1 ≤ item.amount) ∧
        (items.map (fun item => item.id)).Nodup) ∧
    (∀ ct, q.cooking_time = some ct → 1 ≤ ct) := by
  unfold runUpdateValidation at h
  cases h1 : validateTagsField store q.tags with
  | error e => rw [h1] at h; cases h
  | ok tagsData =>
    rw [h1] at h
    cases h2 : validateIngredientsField store q.ingredients with
    | error e => rw [h2] at h; cases h
    | ok resolved =>
      rw [h2] at h
      cases h3 : validateCookingTimeField q.cooking_time with
      | error e => rw [h3] at h; cases h
      | ok ct0 =>
        rw [h3] at h
        cases h4 : validateIngredientDuplicates
            (q.ingredients.map (fun items =>
              items.map (fun item => item.id))) with
        | error e =>
          rw [h4] at h
          cases e with
          | validationError msg => cases h
          | typeError msg => cases h
        | ok u =>
          constructor
          · intro items hqi
            rw [hqi] at h2 h4
            constructor
            · unfold validateIngredientsField at h2
              dsimp only at h2
              cases hri : resolveIngredients store items with
              | error e => rw [hri] at h2; cases h2
              | ok res => exact resolveIngredients_ok_amounts hri
            · dsimp only [Option.map] at h4
              unfold validateIngredientDuplicates at h4
              dsimp only at h4
              by_cases hdup : (items.map (fun item => item.id)).dedup.length ≠
                  (items.map (fun item => item.id)).length
              · rw [if_pos hdup] at h4; cases h4
              · push_neg at hdup
                exact dedup_length_eq_nodup hdup
          · intro ct hct
            rw [hct] at h3
            unfold validateCookingTimeField at h3
            dsimp only at h3
            by_cases hlt : ct < 1
            · rw [if_pos hlt] at h3; cases h3
            · omega

/-! ### Claims -/

/-- C1: the aggregation query of `download_shopping_cart` does group the
cart's `RecipeIngredient` rows by (name, measurement unit) and sum their
amounts — on `store0` the single group carries total 200 under the key
`total` — but the rendering loop then subscripts the group dictionary
with `name`, a key `values('ingredient__name', ...)` never produces, so
for any non-empty cart the handler dies with a `KeyError` before
emitting a single numbered line. -/
theorem download_shopping_cart_keyerror_on_nonempty_cart :
    valuesAnnotate (cartIngredientRows store0 1) =
      [[("ingredient__name", PyVal.str "Мука"),
        ("ingredient__measurement_unit", PyVal.str "г"),
        ("total", PyVal.int 200)]] ∧
    dictGet [("ingredient__name", PyVal.str "Мука"),
        ("ingredient__measurement_unit", PyVal.str "г"),
        ("total", PyVal.int 200)] "name" = none ∧
    download_shopping_cart store0 1 = .error "KeyError: name" := by
  refine ⟨rfl, rfl, rfl⟩

/-- C9: the duplicate-ingredient check of
`RecipeCreateUpdateSerializer.validate` is only defined when
`initial_data` binds `ingredients` to a list: on a payload without the
key it raises a bare `TypeError` (not a `ValidationError`), while on a
list it either passes or reports the duplicate as a validation error. -/
theorem validate_missing_ingredients_key_typeerror :
    validateIngredientDuplicates none =
      .error (.typeError "argument of type NoneType is not iterable") ∧
    validateIngredientDuplicates (some [3, 5]) = .ok () ∧
    validateIngredientDuplicates (some [3, 3]) =
      .error (.validationError "Which ingredient is listed more than once") := by
  refine ⟨rfl, rfl, rfl⟩

/-- C2 counterexample: a create whose tag list is empty, and one whose
ingredient list is empty, both pass validation and persist rows, and an
update request carrying empty tag and ingredient lists passes validation
as well, though the claim says every such write is rejected. -/
theorem recipe_write_empty_lists_accepted :
    emptyTagsPayload.tags = [] ∧
    (createRecipe store0 emptyTagsPayload 1 100).isOk = true ∧
    emptyIngredientsPayload.ingredients = [] ∧
    (createRecipe store0 emptyIngredientsPayload 1 100).isOk = true ∧
    (runUpdateValidation store0 ⟨some [], some [], some 10⟩).isOk = true := by
  refine ⟨rfl, rfl, rfl, rfl, rfl⟩

/-- C2 (amended): a recipe create or update request is rejected whenever
an ingredient identifier repeats in its list, or any supplied ingredient
quantity is ≤ 0, or a supplied cooking time is ≤ 0 — a field-level error
on create, a field-level or `validate` error on update — and a rejected
write persists no rows; empty tag or ingredient lists, however, are
accepted (see the counterexample). -/
theorem recipe_write_invalid_rejected (store : Store) (p : RecipePayload)
    (author newId recipeId : Nat) (q : UpdateRequest)
    (hp : ¬(p.ingredients.map (fun item => item.id)).Nodup ∨
      (∃ item ∈ p.ingredients, item.amount ≤ 0) ∨ p.cooking_time ≤ 0)
    (hq : (∃ items, q.ingredients = some items ∧
        (¬(items.map (fun item => item.id)).Nodup ∨
          ∃ item ∈ items, item.amount ≤ 0)) ∨
      (∃ ct, q.cooking_time = some ct ∧ ct ≤ 0)) :
    ((∃ e, createRecipe store p author newId = .error e) ∧
      performCreate store p author newId = store) ∧
    ((∃ e2, runUpdateValidation store q = .error e2) ∧
      performUpdate store recipeId q = store) := by
  have hrej : ∃ e, createRecipe store p author newId = .error e := by
    cases hv : runValidation store p with
    | error e => exact ⟨e, by unfold createRecipe; rw [hv]⟩
    | ok v =>
      exfalso
      obtain ⟨ham, hct, hnd⟩ := runValidation_ok_conditions hv
      rcases hp with h | ⟨item, hmem, hle⟩ | h
      · exact h hnd
      · have := ham item hmem; omega
      · omega
  have hrej2 : ∃ e2, runUpdateValidation store q = .error e2 := by
    cases hv : runUpdateValidation store q with
    | error e => exact ⟨e, rfl⟩
    | ok v =>
      exfalso
      obtain ⟨hing, hct⟩ := runUpdateValidation_ok_conditions hv
      rcases hq with ⟨items, hqi, hbad⟩ | ⟨ct, hqc, hle⟩
      · obtain ⟨ham, hnd⟩ := hing items hqi
        rcases hbad with hbad | ⟨item, hmem, hle⟩
        · exact hbad hnd
        · have := ham item hmem; omega
      · have := hct ct hqc; omega
  obtain ⟨e, he⟩ := hrej
  obtain ⟨e2, he2⟩ := hrej2
  exact ⟨⟨⟨e, he⟩, by unfold performCreate; rw [he]⟩,
    ⟨⟨e2, he2⟩, by unfold performUpdate; rw [he2]⟩⟩

/-- Witness for C2: the duplicated-ingredient create payload and the
duplicated-ingredient update request are both rejected and `store0` is
left unchanged by both endpoints. -/
theorem recipe_write_invalid_rejected_witness :
    ((∃ e, createRecipe store0 dupIngredientsPayload 1 100 = .error e) ∧
      performCreate store0 dupIngredientsPayload 1 100 = store0) ∧
    ((∃ e2, runUpdateValidation store0 dupUpdateRequest = .error e2) ∧
      performUpdate store0 1 dupUpdateRequest = store0) :=
  recipe_write_invalid_rejected store0 dupIngredientsPayload 1 100 1
    dupUpdateRequest (Or.inl (by decide))
    (Or.inl ⟨[⟨1, 2⟩, ⟨1, 3⟩], rfl, Or.inl (by decide)⟩)

/-- Tag field validation returns the posted list itself when every id
resolves. -/
theorem resolveTags_ok_eq {store : Store} :
    ∀ {ts : List Nat} {res}, resolveTags store ts = .ok res → res = ts := by
  intro ts
  induction ts with
  | nil => intro res h; injection h with h; exact h.symm
  | cons hd tl ih =>
    intro res h
    unfold resolveTags at h
    by_cases hc : store.tags.contains hd
    · rw [if_pos hc] at h
      cases hr : resolveTags store tl with
      | error e => rw [hr] at h; cases h
      | ok ts2 => rw [hr] at h; injection h with h; rw [← h, ih hr]
    · rw [if_neg hc] at h; cases h

/-- Every posted ingredient item survives field validation as a resolved
(ingredient, amount) pair with the same id and amount. -/
theorem resolveIngredients_ok_items {store : Store} :
    ∀ {items : List IngredientItem} {res},
      resolveIngredients store items = .ok res →
      ∀ item ∈ items, ∃ pr ∈ res, pr.1.id = item.id ∧ pr.2 = item.amount := by
  intro items
  induction items with
  | nil => intro res _ item hmem; cases hmem
  | cons hd tl ih =>
    intro res h item hmem
    unfold resolveIngredients at h
    cases hfind : store.ingredients.find? (fun ing => ing.id = hd.id) with
    | none => rw [hfind] at h; cases h
    | some ing =>
      rw [hfind] at h
      by_cases hlt : hd.amount < 1
      · simp [hlt] at h
      · simp only [if_neg hlt] at h
        cases hrec : resolveIngredients store tl with
        | error e => rw [hrec] at h; cases h
        | ok tail =>
          rw [hrec] at h
          injection h with h
          rcases List.mem_cons.mp hmem with rfl | hm
          · refine ⟨(ing, item.amount), ?_, ?_, rfl⟩
            · rw [← h]; exact List.mem_cons_self _ _
            · have h2 := List.find?_some hfind
              simp at h2
              exact h2
          · obtain ⟨pr, hpr, hid, ham⟩ := ih hrec item hm
            exact ⟨pr, by rw [← h]; exact List.mem_cons_of_mem _ hpr, hid, ham⟩

/-- C3: a recipe create is atomic — after `createRecipeTx` either the
store is exactly the initial one (validation failed, or a later insert
such as the ingredient `bulk_create` failed and the transaction rolled
back) or the recipe row, every tag association and every per-ingredient
quantity row are all present; no intermediate state is observable. -/
theorem recipe_create_atomic (store : Store) (p : RecipePayload)
    (author newId : Nat) (bulkFails : Bool) :
    createRecipeTx store p author newId bulkFails = store ∨
    (RecipeRow.mk newId author p.name p.image p.text p.cooking_time ∈
        (createRecipeTx store p author newId bulkFails).recipes ∧
      (∀ t ∈ p.tags,
        RecipeTagRow.mk newId t ∈
          (createRecipeTx store p author newId bulkFails).recipeTags) ∧
      (∀ item ∈ p.ingredients,
        ∃ row ∈ (createRecipeTx store p author newId bulkFails).recipeIngredients,
          row.recipe = newId ∧ row.ingredient.id = item.id ∧
          row.amount = item.amount)) := by
  cases hv : createRecipeAttempt store p author newId bulkFails with
  | error e => left; unfold createRecipeTx; rw [hv]
  | ok s =>
    right
    have htx : createRecipeTx store p author newId bulkFails = s := by
      unfold createRecipeTx; rw [hv]
    unfold createRecipeAttempt at hv
    cases hrv : runValidation store p with
    | error e => rw [hrv] at hv; cases hv
    | ok v =>
      obtain ⟨tagsData, resolved⟩ := v
      rw [hrv] at hv
      dsimp only at hv
      by_cases hb : bulkFails
      · rw [if_pos hb] at hv; cases hv
      · rw [if_neg hb] at hv
        injection hv with hv
        have hfacts : resolveTags store p.tags = .ok tagsData ∧
            resolveIngredients store p.ingredients = .ok resolved := by
          unfold runValidation at hrv
          cases ht : resolveTags store p.tags with
          | error e => rw [ht] at hrv; cases hrv
          | ok td =>
            rw [ht] at hrv
            cases hi : resolveIngredients store p.ingredients with
            | error e => rw [hi] at hrv; cases hrv
            | ok rs =>
              rw [hi] at hrv
              dsimp only at hrv
              by_cases hct : p.cooking_time < 1
              · rw [if_pos hct] at hrv; cases hrv
              · rw [if_neg hct] at hrv
                by_cases hdup :
                    (p.ingredients.map (fun item => item.id)).dedup.length ≠
                      (p.ingredients.map (fun item => item.id)).length
                · rw [if_pos hdup] at hrv; cases hrv
                · rw [if_neg hdup] at hrv
                  injection hrv with hrv
                  cases hrv
                  exact ⟨rfl, rfl⟩
        obtain ⟨htags, hing⟩ := hfacts
        have heq : tagsData = p.tags := resolveTags_ok_eq htags
        rw [htx, ← hv]
        refine ⟨?_, ?_, ?_⟩
        · simp [createRows]
        · intro t htmem
          simp [createRows, heq]
          right
          exact htmem
        · intro item hmem
          obtain ⟨pr, hpr, hid, ham⟩ := resolveIngredients_ok_items hing item hmem
          refine ⟨⟨newId, pr.1, pr.2⟩, ?_, rfl, hid, ham⟩
          simp [createRows, create_update]
          right
          exact hpr

/-- Replacing every row of one recipe: after deleting the recipe's rows
and appending fresh rows that all carry that recipe id, the rows of the
recipe are exactly the fresh ones and the rows of every other recipe are
untouched. -/
theorem filter_replace {α : Type} (key : α → Nat) (recipeId : Nat)
    (old new : List α) (hnew : ∀ a ∈ new, key a = recipeId) :
    ((old.filter (fun r => key r ≠ recipeId) ++ new).filter
        (fun r => key r = recipeId) = new) ∧
    ((old.filter (fun r => key r ≠ recipeId) ++ new).filter
        (fun r => key r ≠ recipeId) = old.filter (fun r => key r ≠ recipeId)) := by
  constructor
  · rw [List.filter_append]
    have h1 : (old.filter (fun r => key r ≠ recipeId)).filter
        (fun r => key r = recipeId) = [] := by
      rw [List.filter_filter]
      apply List.filter_eq_nil_iff.mpr
      intro a _
      simp
    have h2 : new.filter (fun r => key r = recipeId) = new :=
      List.filter_eq_self.mpr (fun a ha => by simp [hnew a ha])
    rw [h1, h2, List.nil_append]
  · rw [List.filter_append]
    have h1 : (old.filter (fun r => key r ≠ recipeId)).filter
        (fun r => key r ≠ recipeId) = old.filter (fun r => key r ≠ recipeId) := by
      apply List.filter_eq_self.mpr
      intro a ha
      have hmem := List.of_mem_filter ha
      exact hmem
    have h2 : new.filter (fun r => key r ≠ recipeId) = [] := by
      apply List.filter_eq_nil_iff.mpr
      intro a ha
      simp [hnew a ha]
    rw [h1, h2, List.append_nil]

/-- C4: an update whose request carries both lists fully replaces the
recipe's associations — afterwards the recipe's `RecipeIngredient` rows
are exactly the bulk-created rows of the submitted list, its tag rows
are exactly the submitted tags, and the rows of every other recipe are
untouched (no merging or diffing). -/
theorem recipe_update_replaces_associations (store : Store) (recipeId : Nat)
    (v : UpdatePayload) (tagsData : List Nat) (items : List (Ingredient × Int))
    (htags : v.tags = some tagsData) (hing : v.ingredients = some items) :
    ((updateMethod store recipeId v).recipeIngredients.filter
        (fun r => r.recipe = recipeId) = create_update recipeId items) ∧
    ((updateMethod store recipeId v).recipeIngredients.filter
        (fun r => r.recipe ≠ recipeId) =
      store.recipeIngredients.filter (fun r => r.recipe ≠ recipeId)) ∧
    ((updateMethod store recipeId v).recipeTags.filter
        (fun r => r.recipe = recipeId) =
      tagsData.map (fun t => RecipeTagRow.mk recipeId t)) ∧
    ((updateMethod store recipeId v).recipeTags.filter
        (fun r => r.recipe ≠ recipeId) =
      store.recipeTags.filter (fun r => r.recipe ≠ recipeId)) := by
  have hri : ∀ a ∈ create_update recipeId items,
      RecipeIngredientRow.recipe a = recipeId := by
    intro a ha
    obtain ⟨d, _, rfl⟩ := List.mem_map.mp ha
    rfl
  have htg : ∀ a ∈ tagsData.map (fun t => RecipeTagRow.mk recipeId t),
      RecipeTagRow.recipe a = recipeId := by
    intro a ha
    obtain ⟨t, _, rfl⟩ := List.mem_map.mp ha
    rfl
  unfold updateMethod
  rw [htags, hing]
  cases v.cooking_time with
  | none =>
    dsimp only
    exact ⟨(filter_replace RecipeIngredientRow.recipe recipeId
        store.recipeIngredients (create_update recipeId items) hri).1,
      (filter_replace RecipeIngredientRow.recipe recipeId
        store.recipeIngredients (create_update recipeId items) hri).2,
      (filter_replace RecipeTagRow.recipe recipeId
        store.recipeTags (tagsData.map (fun t => RecipeTagRow.mk recipeId t)) htg).1,
      (filter_replace RecipeTagRow.recipe recipeId
        store.recipeTags (tagsData.map (fun t => RecipeTagRow.mk recipeId t)) htg).2⟩
  | some ct =>
    dsimp only
    exact ⟨(filter_replace RecipeIngredientRow.recipe recipeId
        store.recipeIngredients (create_update recipeId items) hri).1,
      (filter_replace RecipeIngredientRow.recipe recipeId
        store.recipeIngredients (create_update recipeId items) hri).2,
      (filter_replace RecipeTagRow.recipe recipeId
        store.recipeTags (tagsData.map (fun t => RecipeTagRow.mk recipeId t)) htg).1,
      (filter_replace RecipeTagRow.recipe recipeId
        store.recipeTags (tagsData.map (fun t => RecipeTagRow.mk recipeId t)) htg).2⟩

/-- Witness for C4: updating recipe 1 of `store0` with tag list [1] and
ingredient list [(sugar, 50)] leaves exactly those associations. -/
theorem recipe_update_replaces_associations_witness :
    ((updateMethod store0 1 ⟨some [1], some [(sugar, 50)], none⟩).recipeIngredients.filter
        (fun r => r.recipe = 1) = create_update 1 [(sugar, 50)]) ∧
    ((updateMethod store0 1 ⟨some [1], some [(sugar, 50)], none⟩).recipeIngredients.filter
        (fun r => r.recipe ≠ 1) =
      store0.recipeIngredients.filter (fun r => r.recipe ≠ 1)) ∧
    ((updateMethod store0 1 ⟨some [1], some [(sugar, 50)], none⟩).recipeTags.filter
        (fun r => r.recipe = 1) = [1].map (fun t => RecipeTagRow.mk 1 t)) ∧
    ((updateMethod store0 1 ⟨some [1], some [(sugar, 50)], none⟩).recipeTags.filter
        (fun r => r.recipe ≠ 1) = store0.recipeTags.filter (fun r => r.recipe ≠ 1)) :=
  recipe_update_replaces_associations store0 1
    ⟨some [1], some [(sugar, 50)], none⟩ [1] [(sugar, 50)] rfl rfl

/-- C10: an update whose validated data omits the `ingredients` key
leaves the recipe's `RecipeIngredient` rows untouched, and one that
omits the `tags` key leaves its tag associations untouched — deletion
and re-creation happen only for a present key. -/
theorem recipe_update_omitted_keys_frame (store : Store) (recipeId : Nat)
    (v : UpdatePayload) :
    (v.ingredients = none →
      (updateMethod store recipeId v).recipeIngredients =
        store.recipeIngredients) ∧
    (v.tags = none →
      (updateMethod store recipeId v).recipeTags = store.recipeTags) := by
  unfold updateMethod
  cases v.tags with
  | none =>
    cases v.ingredients with
    | none =>
      cases v.cooking_time with
      | none => exact ⟨fun _ => rfl, fun _ => rfl⟩
      | some ct => exact ⟨fun _ => rfl, fun _ => rfl⟩
    | some items =>
      cases v.cooking_time with
      | none => exact ⟨fun h => (nomatch h), fun _ => rfl⟩
      | some ct => exact ⟨fun h => (nomatch h), fun _ => rfl⟩
  | some tagsData =>
    cases v.ingredients with
    | none =>
      cases v.cooking_time with
      | none => exact ⟨fun _ => rfl, fun h => (nomatch h)⟩
      | some ct => exact ⟨fun _ => rfl, fun h => (nomatch h)⟩
    | some items =>
      cases v.cooking_time with
      | none => exact ⟨fun h => (nomatch h), fun h => (nomatch h)⟩
      | some ct => exact ⟨fun h => (nomatch h), fun h => (nomatch h)⟩

/-- Witness for C10: an update of recipe 1 of `store0` carrying only a
new cooking time changes neither association table. -/
theorem recipe_update_omitted_keys_frame_witness :
    ((updateMethod store0 1 ⟨none, none, some 15⟩).recipeIngredients =
      store0.recipeIngredients) ∧
    ((updateMethod store0 1 ⟨none, none, some 15⟩).recipeTags =
      store0.recipeTags) :=
  ⟨(recipe_update_omitted_keys_frame store0 1 ⟨none, none, some 15⟩).1 rfl,
   (recipe_update_omitted_keys_frame store0 1 ⟨none, none, some 15⟩).2 rfl⟩

/-- A membership check that fails means no row of the list carries the
pair. -/
theorem membershipExists_false {rows : List MembershipRow} {user pk : Nat}
    (h : membershipExists rows user pk = false) :
    ∀ r ∈ rows, ¬(r.user = user ∧ r.recipe = pk) := by
  intro r hr hcontra
  have : rows.any (fun r => r.user = user && r.recipe = pk) = true :=
    List.any_eq_true.mpr ⟨r, hr, by simp [hcontra.1, hcontra.2]⟩
  rw [membershipExists] at h
  rw [h] at this
  cases this

/-- C5: a favourite or shopping-cart POST on an already-present
(user, recipe) pair answers 400 and adds nothing, a DELETE on an absent
pair answers 400 and removes nothing, and both operations keep every
(user, recipe) pair unique in the table. -/
theorem favourite_cart_toggle_conflicts (rows : List MembershipRow)
    (recipes : List RecipeRow) (u1 p1 u2 p2 : Nat)
    (h1 : membershipExists rows u1 p1 = true)
    (h2 : membershipExists rows u2 p2 = false)
    (hu : uniquePairs rows) :
    post_method rows recipes u1 p1 = (rows, .badRequest "Рецепт уже в списке") ∧
    delete_method rows u2 p2 = (rows, .badRequest "Рецепта нет в списке") ∧
    (∀ u pk, uniquePairs (post_method rows recipes u pk).1 ∧
      uniquePairs (delete_method rows u pk).1) := by
  refine ⟨by simp [post_method, h1], by simp [delete_method, h2], ?_⟩
  intro u pk
  constructor
  · by_cases hm : membershipExists rows u pk
    · simp [post_method, hm]; exact hu
    · simp only [Bool.not_eq_true] at hm
      unfold post_method
      rw [hm]
      simp only [Bool.false_eq_true, if_false]
      cases hfind : recipes.find? (fun r => r.id = pk) with
      | none => exact hu
      | some r =>
        dsimp only
        rw [uniquePairs, List.pairwise_append]
        refine ⟨hu, List.pairwise_singleton _ _, ?_⟩
        intro a ha b hb
        rw [List.mem_singleton] at hb
        subst hb
        intro hcontra
        exact membershipExists_false hm a ha ⟨hcontra.1, hcontra.2⟩
  · unfold delete_method
    by_cases hm : membershipExists rows u pk
    · rw [hm]
      simp only [if_true]
      exact hu.sublist (List.filter_sublist rows)
    · simp only [Bool.not_eq_true] at hm
      rw [hm]
      simp only [Bool.false_eq_true, if_false]
      exact hu

/-- Witness for C5: on `store0`'s favourites table (user 1 has recipe 1),
re-adding (1, 1) and deleting the absent (1, 7) both answer 400 without
touching the table, and uniqueness is preserved. -/
theorem favourite_cart_toggle_conflicts_witness :
    post_method store0.favourites store0.recipes 1 1 =
      (store0.favourites, .badRequest "Рецепт уже в списке") ∧
    delete_method store0.favourites 1 7 =
      (store0.favourites, .badRequest "Рецепта нет в списке") ∧
    (∀ u pk, uniquePairs (post_method store0.favourites store0.recipes u pk).1 ∧
      uniquePairs (delete_method store0.favourites u pk).1) :=
  favourite_cart_toggle_conflicts store0.favourites store0.recipes 1 1 1 7
    (by decide) (by decide) (by unfold uniquePairs; decide)

/-- C6: on an existing author, a follow POST by that author themself is
rejected, a follow POST over an existing edge is rejected as a
duplicate, a follow DELETE without an edge fails, and a successful
DELETE removes exactly the (follower, author) edge. -/
theorem subscribe_follow_rules (follows : List FollowRow) (users : List Nat)
    (u a1 a2 : Nat)
    (hu : users.contains u = true)
    (ha1 : users.contains a1 = true)
    (ha2 : users.contains a2 = true)
    (hne1 : u ≠ a1)
    (hedge1 : follows.any (fun f => f.user = u && f.author = a1) = true)
    (hedge2 : follows.any (fun f => f.user = u && f.author = a2) = false) :
    subscribe follows users u u .post =
      (follows, .badRequest "Подписаться на себя запрещено") ∧
    subscribe follows users u a1 .post =
      (follows, .badRequest "Вы уже подписаны на этого пользователя") ∧
    subscribe follows users u a2 .delete =
      (follows, .badRequest "Вы не подписаны на этого пользователя") ∧
    subscribe follows users u a1 .delete =
      (follows.filter (fun f => ¬(f.user = u ∧ f.author = a1)), .noContent) := by
  have hu2 : u ∈ users := by simpa using hu
  have hb1 : a1 ∈ users := by simpa using ha1
  have hb2 : a2 ∈ users := by simpa using ha2
  have he1 : ∃ f ∈ follows, f.user = u ∧ f.author = a1 := by simpa using hedge1
  have he2 : ¬∃ f ∈ follows, f.user = u ∧ f.author = a2 := by simpa using hedge2
  refine ⟨?_, ?_, ?_, ?_⟩
  · simp [subscribe, hu2]
  · simp [subscribe, hb1, hne1, he1]
  · simp [subscribe, hb2, he2]
  · simp [subscribe, hb1, he1]

/-- Witness for C6: in `store0` (users 1 and 2, user 2 follows user 1)
all four behaviours are exhibited by user 2. -/
theorem subscribe_follow_rules_witness :
    subscribe store0.follows store0.users 2 2 .post =
      (store0.follows, .badRequest "Подписаться на себя запрещено") ∧
    subscribe store0.follows store0.users 2 1 .post =
      (store0.follows, .badRequest "Вы уже подписаны на этого пользователя") ∧
    subscribe store0.follows store0.users 2 2 .delete =
      (store0.follows, .badRequest "Вы не подписаны на этого пользователя") ∧
    subscribe store0.follows store0.users 2 1 .delete =
      (store0.follows.filter (fun f => ¬(f.user = 2 ∧ f.author = 1)), .noContent) :=
  subscribe_follow_rules store0.follows store0.users 2 1 2
    (by decide) (by decide) (by decide) (by decide) (by decide) (by decide)

/-- C7 counterexample: deleting a favourite of a recipe id that no
`Recipe` row carries answers 400 ("Рецепта нет в списке"), not the 404
the claim requires for operations naming a missing recipe id. -/
theorem delete_missing_recipe_answers_400 :
    store0.recipes.all (fun r => r.id ≠ 7) = true ∧
    delete_method store0.favourites 1 7 =
      (store0.favourites, .badRequest "Рецепта нет в списке") ∧
    (delete_method store0.favourites 1 7).2 ≠ Resp.notFound := by
  refine ⟨by decide, rfl, by decide⟩

/-- C7 (amended): a favourite or cart POST naming a recipe id with no
row answers 404 (when no membership row names that id), and a subscribe
POST or DELETE naming a missing user id answers 404; duplicate adds
answer 400; but a favourite or cart DELETE naming a missing recipe id
answers the same 400 as a delete-when-absent, because the absence check
precedes any recipe lookup. -/
theorem error_taxonomy (rows : List MembershipRow)
    (recipes : List RecipeRow) (follows : List FollowRow) (users : List Nat)
    (user pk missingUser u2 p2 : Nat) (m : Method)
    (hnr : recipes.find? (fun r => r.id = pk) = none)
    (hm : membershipExists rows user pk = false)
    (hmu : users.contains missingUser = false)
    (h2 : membershipExists rows u2 p2 = true) :
    post_method rows recipes user pk = (rows, .notFound) ∧
    subscribe follows users user missingUser m = (follows, .notFound) ∧
    post_method rows recipes u2 p2 = (rows, .badRequest "Рецепт уже в списке") ∧
    delete_method rows user pk = (rows, .badRequest "Рецепта нет в списке") := by
  have hmu2 : missingUser ∉ users := by simpa using hmu
  refine ⟨?_, ?_, ?_, ?_⟩
  · simp [post_method, hm, hnr]
  · simp [subscribe, hmu2]
  · simp [post_method, h2]
  · simp [delete_method, hm]

/-- Witness for C7: on `store0`, POST favourite of the missing recipe 7
is 404, subscribing to the missing user 9 is 404, re-adding favourite
(1, 1) is 400, and DELETE favourite of the missing recipe 7 is 400. -/
theorem error_taxonomy_witness :
    post_method store0.favourites store0.recipes 1 7 =
      (store0.favourites, .notFound) ∧
    subscribe store0.follows store0.users 1 9 .post =
      (store0.follows, .notFound) ∧
    post_method store0.favourites store0.recipes 1 1 =
      (store0.favourites, .badRequest "Рецепт уже в списке") ∧
    delete_method store0.favourites 1 7 =
      (store0.favourites, .badRequest "Рецепта нет в списке") :=
  error_taxonomy store0.favourites store0.recipes store0.follows store0.users
    1 7 9 1 1 .post (by decide) (by decide) (by decide) (by decide)

/-- The resolved items carry exactly the posted ingredient ids, in
order. -/
theorem resolveIngredients_ok_ids {store : Store} :
    ∀ {items : List IngredientItem} {res},
      resolveIngredients store items = .ok res →
      res.map (fun pr => pr.1.id) = items.map (fun item => item.id) := by
  intro items
  induction items with
  | nil => intro res h; injection h with h; rw [← h]; rfl
  | cons hd tl ih =>
    intro res h
    unfold resolveIngredients at h
    cases hfind : store.ingredients.find? (fun ing => ing.id = hd.id) with
    | none => rw [hfind] at h; cases h
    | some ing =>
      rw [hfind] at h
      by_cases hlt : hd.amount < 1
      · simp [hlt] at h
      · simp only [if_neg hlt] at h
        cases hrec : resolveIngredients store tl with
        | error e => rw [hrec] at h; cases h
        | ok tail =>
          rw [hrec] at h
          injection h with h
          rw [← h]
          simp only [List.map_cons]
          have hid : ing.id = hd.id := by
            have h2 := List.find?_some hfind
            simp at h2
            exact h2
          rw [hid, ih hrec]

/-- Eliminating a successful create: it went through validation and the
result is exactly `createRows` on the validated data. -/
theorem createRecipe_ok_elim {store : Store} {p : RecipePayload}
    {author newId : Nat} {s2 : Store}
    (h : createRecipe store p author newId = .ok s2) :
    ∃ tagsData resolved,
      resolveIngredients store p.ingredients = .ok resolved ∧
      runValidation store p = .ok (tagsData, resolved) ∧
      s2 = createRows store p author newId tagsData resolved := by
  unfold createRecipe at h
  cases hrv : runValidation store p with
  | error e => rw [hrv] at h; cases h
  | ok v =>
    obtain ⟨tagsData, resolved⟩ := v
    rw [hrv] at h
    dsimp only at h
    injection h with h
    refine ⟨tagsData, resolved, ?_, rfl, h.symm⟩
    unfold runValidation at hrv
    cases ht : resolveTags store p.tags with
    | error e => rw [ht] at hrv; cases hrv
    | ok td =>
      rw [ht] at hrv
      cases hi : resolveIngredients store p.ingredients with
      | error e => rw [hi] at hrv; cases hrv
      | ok rs =>
        rw [hi] at hrv
        dsimp only at hrv
        by_cases hct : p.cooking_time < 1
        · rw [if_pos hct] at hrv; cases hrv
        · rw [if_neg hct] at hrv
          by_cases hdup :
              (p.ingredients.map (fun item => item.id)).dedup.length ≠
                (p.ingredients.map (fun item => item.id)).length
          · rw [if_pos hdup] at hrv; cases hrv
          · rw [if_neg hdup] at hrv
            injection hrv with hrv
            cases hrv
            rfl

/-- Appending fresh rows of a single recipe with pairwise-distinct
ingredient ids to rows that never use that recipe id keeps the
(recipe, ingredient) pairs unique. -/
theorem pairwise_rows_append (old newRows : List RecipeIngredientRow)
    (recipeId : Nat)
    (hold : old.Pairwise
      (fun a b => ¬(a.recipe = b.recipe ∧ a.ingredient.id = b.ingredient.id)))
    (holdne : ∀ a ∈ old, a.recipe ≠ recipeId)
    (hnew : ∀ b ∈ newRows, b.recipe = recipeId)
    (hnewpw : newRows.Pairwise
      (fun a b => a.ingredient.id ≠ b.ingredient.id)) :
    (old ++ newRows).Pairwise
      (fun a b => ¬(a.recipe = b.recipe ∧ a.ingredient.id = b.ingredient.id)) := by
  rw [List.pairwise_append]
  refine ⟨hold, hnewpw.imp (fun h hc => h hc.2), ?_⟩
  intro a ha b hb hc
  exact holdne a ha (hc.1.trans (hnew b hb))

/-- The recipes table after `updateMethod`: only a present
`cooking_time` key touches it. -/
theorem updateMethod_recipes (store : Store) (recipeId : Nat)
    (v : UpdatePayload) :
    (updateMethod store recipeId v).recipes =
      (match v.cooking_time with
        | some ct => store.recipes.map (fun r =>
            if r.id = recipeId then { r with cooking_time := ct } else r)
        | none => store.recipes) := by
  unfold updateMethod
  rcases v with ⟨t, i, c⟩
  cases t <;> cases i <;> cases c <;> rfl

/-- The `RecipeIngredient` table after `updateMethod`: only a present
`ingredients` key touches it. -/
theorem updateMethod_recipeIngredients (store : Store) (recipeId : Nat)
    (v : UpdatePayload) :
    (updateMethod store recipeId v).recipeIngredients =
      (match v.ingredients with
        | some items => store.recipeIngredients.filter
            (fun r => r.recipe ≠ recipeId) ++ create_update recipeId items
        | none => store.recipeIngredients) := by
  unfold updateMethod
  rcases v with ⟨t, i, c⟩
  cases t <;> cases i <;> cases c <;> rfl

/-- C8: both write operations preserve the schema invariants — every
persisted recipe keeps `cooking_time ≥ 1` and no recipe ever gets two
`RecipeIngredient` rows for the same ingredient — provided the new
recipe id of a create is fresh and the update data passed the serializer
checks. -/
theorem recipe_schema_invariants (store : Store) (p : RecipePayload)
    (author newId recipeId : Nat) (v : UpdatePayload)
    (hinv : RecipeInv store)
    (hfresh : ∀ row ∈ store.recipeIngredients, row.recipe ≠ newId)
    (hvu : validUpdate store v = true) :
    RecipeInv (performCreate store p author newId) ∧
    RecipeInv (updateMethod store recipeId v) := by
  constructor
  · unfold performCreate
    cases hc : createRecipe store p author newId with
    | error e => exact hinv
    | ok s2 =>
      obtain ⟨tagsData, resolved, hi, hrv, hs2⟩ := createRecipe_ok_elim hc
      obtain ⟨ham, hct, hnd⟩ := runValidation_ok_conditions hrv
      subst hs2
      constructor
      · intro r hr
        simp only [createRows, List.mem_append, List.mem_singleton] at hr
        rcases hr with hr | hr
        · exact hinv.1 r hr
        · rw [hr]; exact hct
      · show (store.recipeIngredients ++ create_update newId resolved).Pairwise _
        apply pairwise_rows_append _ _ newId hinv.2 hfresh
        · intro b hb
          obtain ⟨d, _, rfl⟩ := List.mem_map.mp hb
          rfl
        · have hresids : resolved.map (fun pr => pr.1.id) =
              p.ingredients.map (fun item => item.id) :=
            resolveIngredients_ok_ids hi
          have hnodup : (resolved.map (fun pr => pr.1.id)).Nodup := by
            rw [hresids]; exact hnd
          have hpw := List.pairwise_map.mp hnodup
          exact List.pairwise_map.mpr (hpw.imp (fun h => h))
  · have hvi := hvu
    unfold validUpdate at hvi
    simp only [Bool.and_eq_true] at hvi
    obtain ⟨⟨hvtags, hvitems⟩, hvct⟩ := hvi
    constructor
    · intro r hr
      rw [updateMethod_recipes] at hr
      cases hco : v.cooking_time with
      | none => rw [hco] at hr; exact hinv.1 r hr
      | some ct =>
        rw [hco] at hr
        dsimp only at hr
        obtain ⟨r0, hr0, hreq⟩ := List.mem_map.mp hr
        rw [hco] at hvct
        by_cases hid : r0.id = recipeId
        · rw [← hreq, if_pos hid]
          simpa using hvct
        · rw [← hreq, if_neg hid]
          exact hinv.1 r0 hr0
    · show ((updateMethod store recipeId v).recipeIngredients).Pairwise _
      rw [updateMethod_recipeIngredients]
      cases hio : v.ingredients with
      | none => exact hinv.2
      | some items =>
        dsimp only
        rw [hio] at hvitems
        simp only [Bool.and_eq_true] at hvitems
        obtain ⟨hamounts, hdedup⟩ := hvitems
        apply pairwise_rows_append _ _ recipeId
        · exact hinv.2.sublist (List.filter_sublist _)
        · intro a ha
          have hmem := List.of_mem_filter ha
          simpa using hmem
        · intro b hb
          obtain ⟨d, _, rfl⟩ := List.mem_map.mp hb
          rfl
        · have hnodup : (items.map (fun pr => pr.1.id)).Nodup :=
            dedup_length_eq_nodup (by exact_mod_cast of_decide_eq_true hdedup)
          have hpw := List.pairwise_map.mp hnodup
          exact List.pairwise_map.mpr (hpw.imp (fun h => h))

/-- Witness for C8: creating recipe 2 (tag [1], sugar 50, cooking time
20) on `store0` and updating recipe 1 with sugar 50 and cooking time 25
both leave the invariants standing. -/
theorem recipe_schema_invariants_witness :
    RecipeInv (performCreate store0 ⟨[1], [⟨2, 50⟩], "Пирог", "img", "т", 20⟩ 1 2) ∧
    RecipeInv (updateMethod store0 1 ⟨some [1], some [(sugar, 50)], some 25⟩) :=
  recipe_schema_invariants store0 ⟨[1], [⟨2, 50⟩], "Пирог", "img", "т", 20⟩
    1 2 1 ⟨some [1], some [(sugar, 50)], some 25⟩
    (by unfold RecipeInv; decide) (by decide) (by decide)

end Foodgram
